import Mathlib

/-!
Verification of the Finance Scenario Simulator core (recurrence expansion,
business-day adjustment, transaction pipeline, ledger runner, safe-surplus
algorithm, scenario overlay, debt projector).

The JavaScript source is shallowly embedded: JS numbers become `Rat`
(exact arithmetic; the spec's identities are stated over ideal numerics),
ISO `YYYY-MM-DD` date strings become the `Date` structure ordered
lexicographically (which coincides with string order for four-digit years),
absent (`undefined`) fields become `Option`, and JS truthiness defaulting
(`x || d`) is embedded by the `jsOr*` helpers.  Luxon date arithmetic is
embedded through a days-since-epoch conversion (proleptic Gregorian civil
calendar, the same calendar luxon uses).  `while` loops are embedded as
structurally recursive functions on an explicit fuel argument that is chosen
at the call site to be at least the number of iterations the JS loop can
perform, with the guard tested before each step, so the fuel-out branch is
never the one that stops a terminating loop.
-/

namespace FSS

/-- JS `x || d` for an optional number-like `Nat` field: `0` is falsy. -/
def jsOrNat : Option Nat → Nat → Nat
  | some n, d => if n = 0 then d else n
  | none, d => d

/-- JS `x || d` for an optional numeric field: `0` is falsy. -/
def jsOrRat : Option Rat → Rat → Rat
  | some q, d => if q = 0 then d else q
  | none, d => d

/-- JS `x || d` for an optional string field: the empty string is falsy. -/
def jsOrStr : Option String → String → String
  | some s, d => if s == "" then d else s
  | none, d => d

/-- JS truthiness of an optional string (`undefined` and `""` are falsy). -/
def jsTruthyStr : Option String → Bool
  | some s => s != ""
  | none => false

/-- `Math.max` on numbers. -/
def mathMax (a b : Rat) : Rat := if a ≤ b then b else a

/-- `Math.min` on numbers. -/
def mathMin (a b : Rat) : Rat := if a ≤ b then a else b

/-- `Math.abs` on numbers. -/
def mathAbs (a : Rat) : Rat := if a < 0 then -a else a

/-! ## Dates

ISO `YYYY-MM-DD` strings are represented by their year/month/day triple.
String comparison on ISO dates is lexicographic on this triple. -/

structure Date where
  y : Nat
  m : Nat
  d : Nat
deriving DecidableEq, Repr

/-- Strict order on dates (= `localeCompare < 0` on ISO strings). -/
def Date.lt (a b : Date) : Prop :=
  a.y < b.y ∨ (a.y = b.y ∧ (a.m < b.m ∨ (a.m = b.m ∧ a.d < b.d)))

/-- Non-strict order on dates (= `localeCompare ≤ 0` on ISO strings). -/
def Date.le (a b : Date) : Prop :=
  a.y < b.y ∨ (a.y = b.y ∧ (a.m < b.m ∨ (a.m = b.m ∧ a.d ≤ b.d)))

instance (a b : Date) : Decidable (Date.lt a b) := by
  unfold Date.lt; exact inferInstance

instance (a b : Date) : Decidable (Date.le a b) := by
  unfold Date.le; exact inferInstance

/-- Gregorian leap-year test (as used by luxon's calendar). -/
def isLeapYear (y : Nat) : Bool :=
  (y % 4 == 0 && y % 100 != 0) || y % 400 == 0

/-- `DateTime.daysInMonth` for a month `1..12`. -/
def daysInMonth (y m : Nat) : Nat :=
  match m with
  | 1 => 31 | 2 => if isLeapYear y then 29 else 28 | 3 => 31
  | 4 => 30 | 5 => 31 | 6 => 30 | 7 => 31 | 8 => 31
  | 9 => 30 | 10 => 31 | 11 => 30 | _ => 31

/-- Days since 0000-03-01 in the proleptic Gregorian calendar
(civil-calendar algorithm; valid for years ≥ 1). -/
def toDayNumberN (dt : Date) : Nat :=
  let y := if dt.m ≤ 2 then dt.y - 1 else dt.y
  let era := y / 400
  let yoe := y % 400
  let mp := (dt.m + 9) % 12
  let doy := (153 * mp + 2) / 5 + dt.d - 1
  let doe := yoe * 365 + yoe / 4 - yoe / 100 + doy
  era * 146097 + doe

def toDayNumber (dt : Date) : Int := (toDayNumberN dt : Int)

/-- Inverse of `toDayNumberN` (civil-calendar algorithm). -/
def ofDayNumberN (z : Nat) : Date :=
  let era := z / 146097
  let doe := z % 146097
  let yoe := (doe - doe / 1460 + doe / 36524 - doe / 146096) / 365
  let y := yoe + era * 400
  let doy := doe - (365 * yoe + yoe / 4 - yoe / 100)
  let mp := (5 * doy + 2) / 153
  let d := doy - (153 * mp + 2) / 5 + 1
  let m := if mp < 10 then mp + 3 else mp - 9
  if m ≤ 2 then ⟨y + 1, m, d⟩ else ⟨y, m, d⟩

def ofDayNumberI (z : Int) : Date := ofDayNumberN z.toNat

/-- `DateTime.plus({days})`, allowing a negative count. -/
def addDays (dt : Date) (n : Int) : Date := ofDayNumberI (toDayNumber dt + n)

/-- Luxon weekday, `1` = Monday … `7` = Sunday. -/
def weekdayOf (dn : Int) : Nat := (((dn + 2) % 7 + 7) % 7).toNat + 1

/-- Index of a month on the infinite month line (`y * 12 + (m - 1)`). -/
def monthIdx (dt : Date) : Nat := dt.y * 12 + (dt.m - 1)

/-- First day of the month with index `i` (`startOf('month')`). -/
def monthFirst (i : Nat) : Date := ⟨i / 12, i % 12 + 1, 1⟩

/-- `DateTime.plus({months: 1})` with luxon's day-of-month clamping. -/
def addOneMonthClamped (dt : Date) : Date :=
  let i := monthIdx dt + 1
  ⟨i / 12, i % 12 + 1, min dt.d (daysInMonth (i / 12) (i % 12 + 1))⟩

example : toDayNumberN ⟨2024, 1, 1⟩ = 739191 := by decide
example : ofDayNumberN 739191 = ⟨2024, 1, 1⟩ := by decide
example : weekdayOf (toDayNumber ⟨2024, 1, 1⟩) = 1 := by decide
example : addDays ⟨2024, 2, 26⟩ 14 = ⟨2024, 3, 11⟩ := by decide
example : addDays ⟨2024, 3, 1⟩ (-1) = ⟨2024, 2, 29⟩ := by decide

/-! ## Settings values

`model.settings` is a plain JSON object that the scenario overlay can
deep-set at arbitrary dotted paths (`applySettingsSet`), so it is embedded
as a JSON-like tree with insertion-ordered fields, exactly like a JS object
literal. -/

inductive SVal where
  | num (q : Rat)
  | bool (b : Bool)
  | str (s : String)
  | obj (fields : List (String × SVal))

/-- JS truthiness of a settings value. -/
def falsySVal : SVal → Bool
  | .num q => q == 0
  | .bool b => !b
  | .str s => s == ""
  | .obj _ => false

/-- Property read `v[k]` (first binding wins, like a JS object). -/
def svGet : SVal → String → Option SVal
  | .obj fs, k => fs.lookup k
  | _, _ => none

/-- Replace the binding for `k` if present, preserving field order. -/
def svReplaceField (k : String) (v : SVal) :
    List (String × SVal) → List (String × SVal)
  | [] => []
  | (k0, v0) :: fs =>
    if k0 == k then (k0, v) :: fs else (k0, v0) :: svReplaceField k v fs

/-- Property write `target[k] = v`: replaces an existing binding or appends
a new one (JS insertion order).  A write to a non-object primitive is a
no-op here; in the source (strict mode) it would throw, and either way the
value is unchanged. -/
def svSet : SVal → String → SVal → SVal
  | .obj fs, k, v =>
    if (fs.lookup k).isSome then .obj (svReplaceField k v fs)
    else .obj (fs ++ [(k, v)])
  | w, _, _ => w

/-- `x || {}` on a settings value. -/
def jsObj (v : SVal) : SVal := if falsySVal v then .obj [] else v

/-- `settings.forecastHorizonDays || 180` (`runLedger`).  A non-numeric
truthy horizon would make luxon produce an invalid end date; such settings
are outside the embedding and read as the default. -/
def horizonDaysOf (settings : SVal) : Rat :=
  match svGet settings "forecastHorizonDays" with
  | some (.num q) => if q = 0 then 180 else q
  | _ => 180

/-! ## Data model -/

inductive Recurrence where
  /-- `{type: 'monthly_day', day}` -/
  | monthly_day (day : Option Nat)
  /-- `{type: 'semimonthly_days', day1, day2}` -/
  | semimonthly_days (day1 day2 : Option Nat)
  /-- `{type: 'biweekly_anchor', anchorDate}`; `none` stands for a missing
  or unparseable anchor (`DateTime.fromISO` invalid). -/
  | biweekly_anchor (anchorDate : Option Date)
  /-- `{type: 'weekly_dow', dayOfWeek}` -/
  | weekly_dow (dayOfWeek : Option Nat)
  /-- any other `type` tag: the expansion switch has no case for it -/
  | other (tag : String)
deriving DecidableEq

structure Rule where
  id : String
  name : String := ""
  accountId : String := ""
  kind : String := ""
  amount : Rat := 0
  category : Option String := none
  tags : Option (List String) := none
  priority : Option Rat := none
  businessDayAdjustment : Option String := none
  validFrom : Option Date := none
  validTo : Option Date := none
  recurrence : Option Recurrence := none
  followsRuleId : Option String := none
  enabled : Option Bool := none
  toAccountId : Option String := none

structure OneOff where
  id : String
  date : Date
  name : String := ""
  accountId : String := ""
  amount : Rat := 0
  category : Option String := none
  tags : Option (List String) := none
  note : String := ""

structure Account where
  id : String
  name : String := ""
  type : String := ""
  includeInSurplus : Bool := true
  note : String := ""

structure StartingBalance where
  accountId : String
  date : Date
  amount : Rat

structure LumpSum where
  date : Date
  amount : Rat

structure Debt where
  id : String := ""
  name : String := ""
  apr : Rat := 0
  principal : Rat := 0
  minPaymentRuleId : Option String := none
  extraMonthlyPayment : Option Rat := none
  lumpSums : Option (List LumpSum) := none

/-- The base model.  `meta` (timestamps, currency) is read only by the
excluded persistence collaborator and is omitted. -/
structure Model where
  accounts : List Account := []
  startingBalances : List StartingBalance := []
  rules : List Rule := []
  oneOffs : List OneOff := []
  debts : List Debt := []
  settings : SVal := .obj []

/-! ## Recurrence expansion (`recurrence.js`)

The month-stepping `while` loops of `expandMonthlyDay` /
`expandSemimonthlyDays` run while `current ≤ end` where `current` is the
first day of a month that advances by one month per iteration, so at most
`monthIdx end + 1 - monthIdx start` iterations can pass the guard; that
count is used as fuel, and the guard is re-tested before every step. -/

/-- `getValidDayOfMonth(monthStart, day)`: clamp `day` to the month. -/
def getValidDayOfMonth (monthStart : Date) (day : Nat) : Date :=
  ⟨monthStart.y, monthStart.m, min day (daysInMonth monthStart.y monthStart.m)⟩

/-- The `while (current <= end)` loop of `expandMonthlyDay`; `i` is the
month index of `current`. -/
def monthlyDayLoop (day : Nat) (s e : Date) : Nat → Nat → List Date
  | _, 0 => []
  | i, fuel+1 =>
    if Date.le (monthFirst i) e then
      let targetDate := getValidDayOfMonth (monthFirst i) day
      (if Date.le s targetDate ∧ Date.le targetDate e then [targetDate] else []) ++
        monthlyDayLoop day s e (i + 1) fuel
    else []

def expandMonthlyDay (day : Option Nat) (s e : Date) : List Date :=
  monthlyDayLoop (jsOrNat day 1) s e (monthIdx s) (monthIdx e + 1 - monthIdx s)

instance : DecidableRel Date.le := fun _ _ => inferInstance

/-- The month loop of `expandSemimonthlyDays` (pushes both clamped days in
`day1`, `day2` order; the final sort reorders them by date). -/
def semimonthlyLoop (day1 day2 : Nat) (s e : Date) : Nat → Nat → List Date
  | _, 0 => []
  | i, fuel+1 =>
    if Date.le (monthFirst i) e then
      let date1 := getValidDayOfMonth (monthFirst i) day1
      let date2 := getValidDayOfMonth (monthFirst i) day2
      ((if Date.le s date1 ∧ Date.le date1 e then [date1] else []) ++
       (if Date.le s date2 ∧ Date.le date2 e then [date2] else [])) ++
        semimonthlyLoop day1 day2 s e (i + 1) fuel
    else []

/-- `expandSemimonthlyDays`.  The source sorts with the comparator
`a < b ? -1 : 1`; a stable sort by `≤` produces the same list because
date-equal entries are identical values. -/
def expandSemimonthlyDays (day1 day2 : Option Nat) (s e : Date) : List Date :=
  List.insertionSort Date.le
    (semimonthlyLoop (jsOrNat day1 1) (jsOrNat day2 15) s e (monthIdx s)
      (monthIdx e + 1 - monthIdx s))

/-- `while (current <= end) { push(current); current += step days }`.
Each pass of the guard advances `step ≥ 1` days, so
`(endDn - cur).toNat / step + 1` iterations of fuel are enough. -/
def stepCollect (step : Int) (endDn : Int) : Int → Nat → List Int
  | _, 0 => []
  | cur, fuel+1 =>
    if cur ≤ endDn then cur :: stepCollect step endDn (cur + step) fuel else []

/-- `while (current < start) current += step days`; fuel
`(startDn - cur).toNat + 1` dominates the iteration count. -/
def skipForward (step : Int) (startDn : Int) : Int → Nat → Int
  | cur, 0 => cur
  | cur, fuel+1 =>
    if cur < startDn then skipForward step startDn (cur + step) fuel else cur

/-- `expandBiweeklyAnchor`, on day numbers.  `Math.floor` on the real
quotient is `Int.fdiv`; the JS remainder `daysDiff % 14` is only tested
against `0`, on which all remainder conventions agree. -/
def expandBiweeklyAnchor (anchorDate : Option Date) (s e : Date) : List Date :=
  match anchorDate with
  | none => []
  | some anchor =>
    let anchorDn := toDayNumber anchor
    let startDn := toDayNumber s
    let endDn := toDayNumber e
    let daysDiff : Int := startDn - anchorDn
    let weeksToAdd : Int :=
      Int.fdiv daysDiff 14 + (if daysDiff % 14 ≠ 0 ∧ daysDiff > 0 then 1 else 0)
    let current := anchorDn + 14 * weeksToAdd
    let current2 := skipForward 14 startDn current ((startDn - current).toNat + 1)
    (stepCollect 14 endDn current2 ((endDn - current2).toNat / 14 + 1)).map ofDayNumberI

/-- The weekday-alignment loop of `expandWeeklyDow`.  For
`dayOfWeek ≤ 6` the weekday cycle guarantees a match within 7 steps; for
an out-of-range `dayOfWeek` the JS loop never terminates (no claim
concerns that case). -/
def weeklyAlign (luxonDow : Nat) : Int → Nat → Int
  | cur, 0 => cur
  | cur, fuel+1 =>
    if weekdayOf cur ≠ luxonDow then weeklyAlign luxonDow (cur + 1) fuel else cur

/-- `expandWeeklyDow`; `recurrence.dayOfWeek ?? 0` is nullish coalescing,
so an explicit `0` is kept. -/
def expandWeeklyDow (dayOfWeek : Option Nat) (s e : Date) : List Date :=
  let dow := dayOfWeek.getD 0
  let luxonDow := dow + 1
  let endDn := toDayNumber e
  let current := weeklyAlign luxonDow (toDayNumber s) 7
  (stepCollect 7 endDn current ((endDn - current).toNat / 7 + 1)).map ofDayNumberI

/-- A generated occurrence / transaction.  Fields a given JS code path does
not set are `Option` (absent = `none`) or carry their JS-absent default. -/
structure Tx where
  date : Date
  ruleId : Option String := none
  oneOffId : Option String := none
  name : String := ""
  accountId : String := ""
  kind : String := ""
  amount : Rat := 0
  category : String := ""
  tags : List String := []
  priority : Rat := 0
  businessDayAdjustment : Option String := none
  toAccountId : Option String := none
  isOneOff : Bool := false
  originalDate : Option Date := none
  wasAdjusted : Option Bool := none
deriving DecidableEq

/-- The `switch (recurrence.type)` dispatch of `expandRule`; the switch has
no default case, so an unknown tag contributes no occurrences. -/
def expandRec : Recurrence → Date → Date → List Date
  | .monthly_day day, s, e => expandMonthlyDay day s e
  | .semimonthly_days d1 d2, s, e => expandSemimonthlyDays d1 d2 s e
  | .biweekly_anchor a, s, e => expandBiweeklyAnchor a s e
  | .weekly_dow dw, s, e => expandWeeklyDow dw s e
  | .other _, _, _ => []

/-- `expandRule(rule, startDate, endDate, model)`. -/
def expandRule (rule : Option Rule) (startDate endDate : Date)
    (model : Option Model) : List Tx :=
  match rule with
  | none => []
  | some rule =>
    -- `if (!rule || !rule.enabled) return []`
    if rule.enabled ≠ some true then []
    else
      let startDate := match rule.validFrom with
        | some vf => if Date.lt startDate vf then vf else startDate
        | none => startDate
      let endDate := match rule.validTo with
        | some vt => if Date.lt vt endDate then vt else endDate
        | none => endDate
      if Date.lt endDate startDate then []
      else
        let recurrence := match rule.followsRuleId, model with
          | some fid, some m =>
            if fid == "" then rule.recurrence
            else
              match m.rules.find? (fun r => r.id == fid) with
              | some followedRule => followedRule.recurrence
              | none => rule.recurrence
          | _, _ => rule.recurrence
        match recurrence with
        | none => []
        | some rcr =>
          (expandRec rcr startDate endDate).map fun date =>
            { date := date
              ruleId := some rule.id
              name := rule.name
              accountId := rule.accountId
              kind := rule.kind
              amount := rule.amount
              category := jsOrStr rule.category ""
              tags := rule.tags.getD []
              priority := jsOrRat rule.priority 100
              businessDayAdjustment := some (jsOrStr rule.businessDayAdjustment "none")
              toAccountId := rule.toAccountId }

/-! ## Business-day adjustment (`business-day.js`)

Dates enter and leave as `Date`s; the walk itself happens on day numbers.
With weekends as the only exclusion a walk reaches a business day within 2
steps (and `isBusinessDay` is constantly true when the policy disables the
weekend rule), so fuel 7 dominates every terminating run of the JS loop. -/

def isWeekend (dn : Int) : Bool :=
  weekdayOf dn == 6 || weekdayOf dn == 7

def isBusinessDay (dn : Int) (settings : SVal) : Bool :=
  let weekendsAreNonBusinessDays :=
    match svGet settings "weekendsAreNonBusinessDays" with
    | some (.bool false) => false  -- `settings.weekendsAreNonBusinessDays !== false`
    | _ => true
  if weekendsAreNonBusinessDays && isWeekend dn then false else true

/-- `while (!isBusinessDay(adjusted)) adjusted = adjusted ± 1 day`. -/
def bdayWalk (settings : SVal) (step : Int) : Int → Nat → Int
  | dn, 0 => dn
  | dn, fuel+1 =>
    if !isBusinessDay dn settings then bdayWalk settings step (dn + step) fuel
    else dn

def adjustDate (dn : Int) (adjustment : String) (settings : SVal) : Int :=
  if adjustment == "none" || isBusinessDay dn settings then dn
  else if adjustment == "next_business_day" then bdayWalk settings 1 dn 7
  else if adjustment == "prev_business_day" then bdayWalk settings (-1) dn 7
  else dn

/-- `adjustTransaction(transaction, settings)`. -/
def adjustTransaction (t : Tx) (settings : SVal) : Tx :=
  let adjustment := jsOrStr t.businessDayAdjustment "none"
  let businessDaySettings := match svGet settings "businessDays" with
    | some v => jsObj v
    | none => SVal.obj []
  let adjustedDate :=
    ofDayNumberI (adjustDate (toDayNumber t.date) adjustment businessDaySettings)
  { t with
    originalDate := some t.date
    date := adjustedDate
    wasAdjusted := some (adjustedDate != t.date) }

/-! ## Transaction pipeline (`ledger.js`) -/

/-- `kindOrder[kind] || 0` with `kindOrder = {income: 0, transfer: 1,
expense: 2}`; a missing tag and the falsy `0` for income both read 0. -/
def kindOrderOf (k : String) : Nat :=
  if k == "income" then 0
  else if k == "transfer" then 1
  else if k == "expense" then 2
  else 0

/-- "`compare(a, b) ≤ 0`" for the transaction sort comparator
(date asc, then priority asc, then kind order asc). -/
def txLe (a b : Tx) : Prop :=
  Date.lt a.date b.date ∨
    (a.date = b.date ∧
      (a.priority < b.priority ∨
        (a.priority = b.priority ∧ kindOrderOf a.kind ≤ kindOrderOf b.kind)))

instance (a b : Tx) : Decidable (txLe a b) := by
  unfold txLe; exact inferInstance

instance : DecidableRel txLe := fun _ _ => inferInstance

/-- The transaction built from a one-off (step 3 of the pipeline). -/
def oneOffTx (o : OneOff) : Tx :=
  { date := o.date
    ruleId := none
    oneOffId := some o.id
    name := o.name
    accountId := o.accountId
    kind := if o.amount ≥ 0 then "income" else "expense"
    amount := o.amount
    category := jsOrStr o.category "one-off"
    tags := o.tags.getD []
    priority := 50
    isOneOff := true }

/-- Steps 1–3 of `generateTransactions`: expanded and adjusted rule
occurrences followed by in-range one-offs, in emission order. -/
def unsortedTransactions (model : Model) (startDate endDate : Date) : List Tx :=
  let settings := jsObj model.settings
  let enabledRules := model.rules.filter (fun r => r.enabled != some false)
  let transactions :=
    enabledRules.flatMap (fun r => expandRule (some r) startDate endDate (some model))
  let adjustedTransactions := transactions.map (fun t => adjustTransaction t settings)
  let oneOffs :=
    (model.oneOffs.filter
        (fun o => decide (Date.le startDate o.date ∧ Date.le o.date endDate))).map
      oneOffTx
  adjustedTransactions ++ oneOffs

/-- `generateTransactions(model, startDate, endDate)`: the pipeline list
sorted by the comparator.  `Array.prototype.sort` is a stable sort, and for
a consistent comparator every stable sort returns the same list as stable
insertion sort. -/
def generateTransactions (model : Model) (startDate endDate : Date) : List Tx :=
  List.insertionSort txLe (unsortedTransactions model startDate endDate)

/-! ## Ledger runner (`runLedger`) -/

structure RunOptions where
  startDate : Option Date := none
  endDate : Option Date := none
  accountId : Option String := none

/-- `getDefaultAccountId(model)`: the first checking account's id (even if
empty), else `accounts[0]?.id || 'checking'`. -/
def getDefaultAccountId (model : Model) : String :=
  match model.accounts.find? (fun a => a.type == "checking") with
  | some checking => checking.id
  | none =>
    match model.accounts.head? with
    | some a => if a.id == "" then "checking" else a.id
    | none => "checking"

/-- `getStartingBalanceForAccount(model, accountId, date)`: latest starting
balance dated on/before `date` (descending stable sort, first element). -/
def getStartingBalanceForAccount (model : Model) (accountId : String)
    (date : Date) : Rat :=
  let balances :=
    List.insertionSort (fun a b : StartingBalance => Date.le b.date a.date)
      (model.startingBalances.filter
        (fun b => b.accountId == accountId && decide (Date.le b.date date)))
  match balances.head? with
  | some b => b.amount
  | none => 0

instance : DecidableRel (fun a b : StartingBalance => Date.le b.date a.date) :=
  fun _ _ => inferInstance

/-- `daysBetween(date1, date2)` (luxon day diff of ISO dates is an exact
integer). -/
def daysBetween (date1 date2 : Date) : Int :=
  toDayNumber date2 - toDayNumber date1

structure LedgerEntry where
  /-- the `...tx` spread payload (`none` for the synthetic starting entry) -/
  src : Option Tx := none
  date : Date
  name : String
  amount : Rat
  balance : Rat
  kind : String
  category : String
  isStartingBalance : Bool := false
  daysSinceLast : Option Int := none

structure LedgerSummary where
  endBalance : Rat
  minBalance : Rat
  maxBalance : Rat
  minBalanceDate : Date
  maxBalanceDate : Date
  totalIncome : Rat
  totalExpenses : Rat
  totalTransfersIn : Rat
  totalTransfersOut : Rat
  netSurplus : Rat
  transactionCount : Nat

structure LedgerResult where
  accountId : String
  startDate : Date
  endDate : Date
  startingBalance : Rat
  entries : List LedgerEntry
  summary : LedgerSummary

/-- Mutable locals of the `for (const tx of accountTransactions)` loop. -/
structure RunState where
  balance : Rat
  minBalance : Rat
  maxBalance : Rat
  minBalanceDate : Date
  maxBalanceDate : Date
  totalIncome : Rat
  totalExpenses : Rat
  totalTransfersIn : Rat
  totalTransfersOut : Rat
  entries : List LedgerEntry
  prevDate : Date

/-- One iteration of the ledger loop. -/
def ledgerStep (accountId : String) (st : RunState) (tx : Tx) : RunState :=
  let a0 := tx.amount
  -- (signed amount, income, expenses, transfers in, transfers out)
  let applied : Rat × Rat × Rat × Rat × Rat :=
    if tx.kind == "transfer" then
      if tx.accountId == accountId then
        (-(mathAbs a0), st.totalIncome, st.totalExpenses, st.totalTransfersIn,
          st.totalTransfersOut + mathAbs a0)
      else if tx.toAccountId == some accountId then
        (mathAbs a0, st.totalIncome, st.totalExpenses,
          st.totalTransfersIn + mathAbs a0, st.totalTransfersOut)
      else
        (a0, st.totalIncome, st.totalExpenses, st.totalTransfersIn,
          st.totalTransfersOut)
    else if tx.kind == "expense" then
      (-(mathAbs a0), st.totalIncome, st.totalExpenses + mathAbs a0,
        st.totalTransfersIn, st.totalTransfersOut)
    else if tx.kind == "income" then
      (mathAbs a0, st.totalIncome + mathAbs a0, st.totalExpenses,
        st.totalTransfersIn, st.totalTransfersOut)
    else
      (a0, st.totalIncome, st.totalExpenses, st.totalTransfersIn,
        st.totalTransfersOut)
  let amount := applied.1
  let balance := st.balance + amount
  let minB := if balance < st.minBalance then balance else st.minBalance
  let minBD := if balance < st.minBalance then tx.date else st.minBalanceDate
  let maxB := if balance > st.maxBalance then balance else st.maxBalance
  let maxBD := if balance > st.maxBalance then tx.date else st.maxBalanceDate
  { balance := balance
    minBalance := minB
    maxBalance := maxB
    minBalanceDate := minBD
    maxBalanceDate := maxBD
    totalIncome := applied.2.1
    totalExpenses := applied.2.2.1
    totalTransfersIn := applied.2.2.2.1
    totalTransfersOut := applied.2.2.2.2
    entries := st.entries ++
      [{ src := some tx
         date := tx.date
         name := tx.name
         amount := amount
         balance := balance
         kind := tx.kind
         category := tx.category
         isStartingBalance := false
         daysSinceLast := some (daysBetween st.prevDate tx.date) }]
    prevDate := tx.date }

/-- Resolved `startDate` (defaults to today). -/
def resolvedStartDate (today : Date) (options : RunOptions) : Date :=
  options.startDate.getD today

/-- Resolved `endDate` (defaults to today + forecast horizon; a fractional
horizon floors, matching `plus({days}).toISODate()` from midnight). -/
def resolvedEndDate (today : Date) (model : Model) (options : RunOptions) : Date :=
  options.endDate.getD
    (addDays today (horizonDaysOf (jsObj model.settings)).floor)

/-- Resolved ledger account id (`options.accountId || getDefaultAccountId`). -/
def resolvedAccountId (model : Model) (options : RunOptions) : String :=
  jsOrStr options.accountId (getDefaultAccountId model)

/-- The transaction list the ledger replays: the pipeline output filtered
to the account (`accountId ? filter : transactions`; the resolved id is
falsy only when it is the empty string). -/
def ledgerTransactions (model : Model) (accountId : String)
    (startDate endDate : Date) : List Tx :=
  let transactions := generateTransactions model startDate endDate
  if accountId == "" then transactions
  else transactions.filter
    (fun t => t.accountId == accountId || t.toAccountId == some accountId)

/-- The loop state before the first transaction (starting-balance entry
already pushed). -/
def ledgerInitState (startDate : Date) (startingBalance : Rat) : RunState :=
  { balance := startingBalance
    minBalance := startingBalance
    maxBalance := startingBalance
    minBalanceDate := startDate
    maxBalanceDate := startDate
    totalIncome := 0
    totalExpenses := 0
    totalTransfersIn := 0
    totalTransfersOut := 0
    entries := [{ date := startDate
                  name := "Starting Balance"
                  amount := startingBalance
                  balance := startingBalance
                  kind := "balance"
                  category := "starting"
                  isStartingBalance := true }]
    prevDate := startDate }

/-- The loop state after replaying every ledger transaction. -/
def ledgerFinalState (today : Date) (model : Model) (options : RunOptions) :
    RunState :=
  let startDate := resolvedStartDate today options
  let accountId := resolvedAccountId model options
  (ledgerTransactions model accountId startDate
      (resolvedEndDate today model options)).foldl
    (ledgerStep accountId)
    (ledgerInitState startDate
      (getStartingBalanceForAccount model accountId startDate))

/-- `runLedger(model, options)`.  `today` stands for `DateTime.now()`. -/
def runLedger (today : Date) (model : Model) (options : RunOptions) :
    LedgerResult :=
  let startDate := resolvedStartDate today options
  let accountId := resolvedAccountId model options
  let st := ledgerFinalState today model options
  { accountId := accountId
    startDate := startDate
    endDate := resolvedEndDate today model options
    startingBalance := getStartingBalanceForAccount model accountId startDate
    entries := st.entries
    summary :=
      { endBalance := st.balance
        minBalance := st.minBalance
        maxBalance := st.maxBalance
        minBalanceDate := st.minBalanceDate
        maxBalanceDate := st.maxBalanceDate
        totalIncome := st.totalIncome
        totalExpenses := st.totalExpenses
        totalTransfersIn := st.totalTransfersIn
        totalTransfersOut := st.totalTransfersOut
        netSurplus := st.totalIncome - st.totalExpenses
        transactionCount := st.entries.length - 1 } }

/-! ## Safe surplus (`calculateSafeSurplus`, `app-init.js`)

The function reads only `endBalance`, `minBalance` and `minBalanceDate`
from a monthly summary; presentation-only fields are omitted, as is the
human-readable `message` string of the result. -/

structure MonthSummary where
  endBalance : Rat
  minBalance : Rat
  minBalanceDate : Option Date := none

structure SafeSurplusSettings where
  mode : Option String := none
  buffer : Option Rat := none
  floor : Option Rat := none

structure SafeSurplusResult where
  safeWithdrawable : Rat
  endBalance : Option Rat := none
  floor : Option Rat := none
  buffer : Option Rat := none
  required : Option Rat := none
  nextMonthTrough : Option Rat := none
  mode : Option String := none
  isEstimate : Bool := false
  isUnsafe : Bool := false
  unsafeBy : Option Rat := none
  nextMonthTroughDate : Option Date := none

/-- `calculateSafeSurplus(summaries, monthIndex, settings)`. -/
def calculateSafeSurplus (summaries : List MonthSummary) (monthIndex : Nat)
    (settings : SafeSurplusSettings) : SafeSurplusResult :=
  let mode := jsOrStr settings.mode "next_month_trough"
  let buffer := jsOrRat settings.buffer 300
  let floorAmt := jsOrRat settings.floor 2000
  match summaries.get? monthIndex with
  | none => { safeWithdrawable := 0 }  -- `{safeWithdrawable: 0, message: 'No data'}`
  | some currentMonth =>
    let endBalance := currentMonth.endBalance
    if mode == "floor" then
      { safeWithdrawable := mathMax 0 (endBalance - floorAmt)
        endBalance := some endBalance
        floor := some floorAmt
        mode := some "floor" }
    else
      match summaries.get? (monthIndex + 1) with
      | none =>
        -- `Math.max(0, endBalance - floor - buffer)`, flagged an estimate
        { safeWithdrawable := mathMax 0 (endBalance - floorAmt - buffer)
          endBalance := some endBalance
          floor := some floorAmt
          buffer := some buffer
          mode := some "next_month_trough"
          isEstimate := true }
      | some nextMonth =>
        let nextMonthTrough := nextMonth.minBalance
        let required := nextMonthTrough + buffer
        let safeWithdrawable := endBalance - required
        if safeWithdrawable ≥ 0 then
          { safeWithdrawable := safeWithdrawable
            endBalance := some endBalance
            nextMonthTrough := some nextMonthTrough
            buffer := some buffer
            required := some required
            mode := some "next_month_trough"
            nextMonthTroughDate := nextMonth.minBalanceDate }
        else
          { safeWithdrawable := 0
            unsafeBy := some (mathAbs safeWithdrawable)
            endBalance := some endBalance
            nextMonthTrough := some nextMonthTrough
            buffer := some buffer
            required := some required
            mode := some "next_month_trough"
            isUnsafe := true
            nextMonthTroughDate := nextMonth.minBalanceDate }

/-! ## Scenario overlay (`FSS.Overlay`) -/

inductive Op where
  /-- `rule_amount_set`; `amount` is `some` exactly when
  `typeof op.amount === 'number'`. -/
  | rule_amount_set (ruleId : String) (amount : Option Rat)
  /-- `rule_amount_delta`; `delta` as above. -/
  | rule_amount_delta (ruleId : String) (delta : Option Rat)
  /-- `rule_disable` (the rule's `enabled` becomes `!disabled`). -/
  | rule_disable (ruleId : String) (disabled : Bool)
  /-- `rule_recurrence_set`; `none` recurrence is falsy and ignored. -/
  | rule_recurrence_set (ruleId : String) (recurrence : Option Recurrence)
  /-- `add_oneoff`. -/
  | add_oneoff (oneOffId : Option String) (date : Date) (name : Option String)
      (accountId : Option String) (amount : Option Rat) (category : Option String)
      (note : Option String)
  /-- `remove_oneoff`. -/
  | remove_oneoff (oneOffId : Option String)
  /-- `settings_set`; `value` is `some` exactly when `op.value !== undefined`. -/
  | settings_set (path : String) (value : Option SVal)
  /-- any other `op` tag: the dispatch switch has no case for it. -/
  | other (tag : String)

structure Scenario where
  name : String := ""
  ops : List Op := []

/-- Mutate the first element satisfying `p` in place (`Array.find` returns
a live reference). -/
def updateFirst (p : α → Bool) (f : α → α) : List α → List α
  | [] => []
  | x :: xs => if p x then f x :: xs else x :: updateFirst p f xs

/-- `rule.amount = op.amount` on the found rule. -/
def setRuleAmount (v : Rat) (r : Rule) : Rule := { r with amount := v }

/-- `rule.amount = (rule.amount || 0) + delta` on the found rule (`0` is
falsy, so `a || 0` is the identity on numbers). -/
def deltaRuleAmount (d : Rat) (r : Rule) : Rule :=
  { r with amount := (if r.amount = 0 then 0 else r.amount) + d }

/-- `applyRuleAmountSet`. -/
def applyRuleAmountSet (model : Model) (ruleId : String) (amount : Option Rat) :
    Model :=
  match amount with
  | some v =>
    { model with rules :=
        (updateFirst (fun r => r.id == ruleId) (setRuleAmount v) model.rules) }
  | none => model

/-- `applyRuleAmountDelta`. -/
def applyRuleAmountDelta (model : Model) (ruleId : String) (delta : Option Rat) :
    Model :=
  match delta with
  | some d =>
    { model with rules :=
        (updateFirst (fun r => r.id == ruleId) (deltaRuleAmount d) model.rules) }
  | none => model

/-- `applyRuleDisable` (`rule.enabled = !op.disabled`). -/
def applyRuleDisable (model : Model) (ruleId : String) (disabled : Bool) : Model :=
  { model with rules :=
      (updateFirst (fun r => r.id == ruleId)
        (fun r => { r with enabled := some (!disabled) }) model.rules) }

/-- `applyRuleRecurrenceSet` (also deletes `followsRuleId`). -/
def applyRuleRecurrenceSet (model : Model) (ruleId : String)
    (recurrence : Option Recurrence) : Model :=
  match recurrence with
  | some rcr =>
    { model with rules :=
        (updateFirst (fun r => r.id == ruleId)
          (fun r => { r with recurrence := some rcr, followsRuleId := none })
          model.rules) }
  | none => model

/-- `applyAddOneOff`.  `generateId` draws on `Date.now()` and
`Math.random()`; the fresh id it would produce is abstracted by a fixed
placeholder (no claim depends on its value). -/
def applyAddOneOff (model : Model) (oneOffId : Option String) (date : Date)
    (name : Option String) (accountId : Option String) (amount : Option Rat)
    (category : Option String) (note : Option String) : Model :=
  let oneOff : OneOff :=
    { id := jsOrStr oneOffId "scenario_oneoff_fresh"
      date := date
      name := jsOrStr name "Scenario One-Off"
      accountId := jsOrStr accountId "checking"
      amount := jsOrRat amount 0
      category := some (jsOrStr category "scenario")
      tags := some ["scenario"]
      note := jsOrStr note "" }
  { model with oneOffs := model.oneOffs ++ [oneOff] }

/-- `applyRemoveOneOff`. -/
def applyRemoveOneOff (model : Model) (oneOffId : Option String) : Model :=
  if jsTruthyStr oneOffId then
    { model with oneOffs := model.oneOffs.filter (fun o => some o.id != oneOffId) }
  else model

/-- The `for (const key of keys) { if (!target[key]) target[key] = {};
target = target[key] }; target[lastKey] = value` walk of
`applySettingsSet`, expressed as a recursive deep write. -/
def svDeepSet (v : SVal) (keys : List String) (lastKey : String)
    (value : SVal) : SVal :=
  match keys with
  | [] => svSet v lastKey value
  | k :: rest =>
    let child := match svGet v k with
      | some c => if falsySVal c then SVal.obj [] else c
      | none => SVal.obj []
    svSet v k (svDeepSet child rest lastKey value)

/-- `applySettingsSet` (deep-sets `op.path` in `model.settings` when
`op.path` is truthy and `op.value !== undefined`). -/
def applySettingsSet (model : Model) (path : String) (value : Option SVal) :
    Model :=
  match value with
  | some v =>
    if path == "" then model
    else
      let keys := path.splitOn "."
      match keys.dropLast, keys.getLast? with
      | initKeys, some lastKey =>
        { model with settings := svDeepSet model.settings initKeys lastKey v }
      | _, none => model
  | none => model

/-- `applyOperation(model, op)` (the returned model is the mutated one). -/
def applyOperation (model : Model) (op : Op) : Model :=
  match op with
  | .rule_amount_set ruleId amount => applyRuleAmountSet model ruleId amount
  | .rule_amount_delta ruleId delta => applyRuleAmountDelta model ruleId delta
  | .rule_disable ruleId disabled => applyRuleDisable model ruleId disabled
  | .rule_recurrence_set ruleId rcr => applyRuleRecurrenceSet model ruleId rcr
  | .add_oneoff oneOffId date name accountId amount category note =>
    applyAddOneOff model oneOffId date name accountId amount category note
  | .remove_oneoff oneOffId => applyRemoveOneOff model oneOffId
  | .settings_set path value => applySettingsSet model path value
  | .other _ => model

/-! ### Object-identity model for the frame claim

`applyScenario` is specified to mutate only its clone, never the caller's
base model.  To make that observable in a pure embedding, models live in an
explicit heap (`List Model`) addressed by references; `cloneModel`
(`JSON.parse(JSON.stringify(model))`, a deep copy) allocates a fresh cell
holding an equal value, and every in-place mutation is a write to one
cell. -/

/-- JSON round-trip deep clone: at the value level the identity. -/
def cloneModel (model : Model) : Model := model

abbrev Heap := List Model

/-- Allocate a fresh cell holding a deep copy of the model at `r`. -/
def cloneModelHeap (h : Heap) (r : Nat) : Heap × Nat :=
  match h.get? r with
  | some v => (List.append h [cloneModel v], h.length)
  | none => (h, h.length)

/-- `applyOperation` as a write to the heap cell `r`. -/
def applyOperationHeap (h : Heap) (r : Nat) (op : Op) : Heap :=
  match h.get? r with
  | some v => h.set r (applyOperation v op)
  | none => h

/-- `applyScenario(baseModel, scenario)`: clone, then replay `scenario.ops`
in order against the clone; returns (heap, reference to the effective
model). -/
def applyScenarioHeap (h : Heap) (baseRef : Nat) (scenario : Option Scenario) :
    Heap × Nat :=
  match scenario with
  | none => cloneModelHeap h baseRef
  | some sc =>
    if sc.ops.isEmpty then cloneModelHeap h baseRef
    else
      let clone := cloneModelHeap h baseRef
      (sc.ops.foldl (fun hh op => applyOperationHeap hh clone.2 op) clone.1,
        clone.2)

/-! ## Debt projector (`debt.js`) -/

def getMonthlyRate (apr : Rat) : Rat := apr / 100 / 12

/-- `calculateMinPayment(principal, apr)`. -/
def calculateMinPayment (principal apr : Rat) : Rat :=
  if principal ≤ 0 then 0
  else
    let monthlyInterest := principal * getMonthlyRate apr
    let principalPortion := principal * (1 / 100)
    mathMin principal (mathMax 25 (monthlyInterest + principalPortion))

structure PayoffOptions where
  startDate : Option Date := none
  maxMonths : Option Nat := none
  extraMonthly : Option Rat := none
  lumpSums : Option (List LumpSum) := none

structure ScheduleEntry where
  month : Nat
  date : Date
  payment : Rat
  lumpSum : Rat
  interest : Rat
  principal : Rat
  balance : Rat
  totalPaid : Rat
  totalInterest : Rat

structure PayoffResult where
  isPaidOff : Bool
  payoffDate : Option Date := none
  payoffMonths : Option Nat := none
  totalInterest : Rat := 0
  totalPaid : Rat := 0
  originalPrincipal : Rat := 0
  finalBalance : Rat := 0
  monthlyPayment : Rat := 0
  schedule : List ScheduleEntry := []

/-- Mutable locals of the monthly amortization loop. -/
structure PayoffState where
  schedule : List ScheduleEntry
  balance : Rat
  currentDate : Date
  month : Nat
  totalInterest : Rat
  totalPaid : Rat

/-- The `while (balance > 0 && month < maxMonths)` loop of `projectPayoff`.
`month` increments every iteration, so `maxMonths` fuel dominates. -/
def payoffLoop (rate totalMonthlyPayment : Rat) (sortedLumpSums : List LumpSum)
    (maxMonths : Nat) : PayoffState → Nat → PayoffState
  | st, 0 => st
  | st, fuel+1 =>
    if st.balance > 0 ∧ st.month < maxMonths then
      let month := st.month + 1
      let interest := st.balance * rate
      let totalInterest := st.totalInterest + interest
      let balance1 := st.balance + interest
      -- `sortedLumpSums.find(ls => ls.date.startsWith(monthStr))`
      let lumpSum? := sortedLumpSums.find?
        (fun ls => ls.date.y == st.currentDate.y && ls.date.m == st.currentDate.m)
      let lumpSumAmount := match lumpSum? with
        | some ls => mathMin ls.amount balance1
        | none => 0
      let balance2 := balance1 - lumpSumAmount
      let totalPaid1 := st.totalPaid + lumpSumAmount
      let payment := mathMin totalMonthlyPayment balance2
      let balance3 := balance2 - payment
      let totalPaid2 := totalPaid1 + payment
      let balance4 := mathMax 0 balance3
      payoffLoop rate totalMonthlyPayment sortedLumpSums maxMonths
        { schedule := st.schedule ++
            [{ month := month
               date := st.currentDate
               payment := payment
               lumpSum := lumpSumAmount
               interest := interest
               principal := payment - interest + lumpSumAmount
               balance := balance4
               totalPaid := totalPaid2
               totalInterest := totalInterest }]
          balance := balance4
          currentDate := addOneMonthClamped st.currentDate
          month := month
          totalInterest := totalInterest
          totalPaid := totalPaid2 } fuel
    else st

instance : DecidableRel (fun a b : LumpSum => Date.le a.date b.date) :=
  fun _ _ => inferInstance

/-- `projectPayoff(debt, options)`.  `workingRules` stands for the rules of
the `FSS.Model` working-model singleton consulted by
`FSS.Model.getRule(debt.minPaymentRuleId)`; `today` stands for
`DateTime.now()`. -/
def projectPayoff (workingRules : List Rule) (today : Date) (debt : Debt)
    (options : PayoffOptions) : PayoffResult :=
  let startDate := options.startDate.getD today
  let maxMonths := options.maxMonths.getD 360
  let extraMonthly := options.extraMonthly.getD (jsOrRat debt.extraMonthlyPayment 0)
  let lumpSums := options.lumpSums.getD (debt.lumpSums.getD [])
  let minPayment0 : Rat :=
    if jsTruthyStr debt.minPaymentRuleId then
      match workingRules.find? (fun r => some r.id == debt.minPaymentRuleId) with
      | some rule => rule.amount  -- `rule?.amount || 0`; a 0 amount stays 0
      | none => 0
    else 0
  -- `if (!minPayment) minPayment = calculateMinPayment(...)`
  let minPayment :=
    if minPayment0 = 0 then calculateMinPayment debt.principal debt.apr
    else minPayment0
  let totalMonthlyPayment := minPayment + extraMonthly
  if totalMonthlyPayment ≤ 0 then
    { isPaidOff := false, schedule := [] }
  else
    let sortedLumpSums :=
      List.insertionSort (fun a b : LumpSum => Date.le a.date b.date) lumpSums
    let st := payoffLoop (getMonthlyRate debt.apr) totalMonthlyPayment
      sortedLumpSums maxMonths
      { schedule := []
        balance := debt.principal
        currentDate := startDate
        month := 0
        totalInterest := 0
        totalPaid := 0 } maxMonths
    let lastEntry := st.schedule.getLast?
    { isPaidOff := st.balance ≤ 0
      payoffDate := if st.balance ≤ 0 then lastEntry.map (·.date) else none
      payoffMonths := if st.balance ≤ 0 then some st.month else none
      totalInterest := st.totalInterest
      totalPaid := st.totalPaid
      originalPrincipal := debt.principal
      finalBalance := st.balance
      monthlyPayment := totalMonthlyPayment
      schedule := st.schedule }

/-! # Claims -/

/-- C2.  In `next_month_trough` mode with both month `i` and month `i+1`
present and resolved buffer `b`, `calculateSafeSurplus` returns
`endBalance[i] - (minBalance[i+1] + b)` unflagged when that is ≥ 0, and
returns 0 with `isUnsafe` and the shortfall magnitude in `unsafeBy` when it
is negative; in particular endBalance 5000 / next-month trough 1000 /
buffer 300 gives 3700, and endBalance 1000 gives 0 with `unsafeBy = 300`. -/
theorem safeSurplus_next_month_trough (summaries : List MonthSummary) (i : Nat)
    (settings : SafeSurplusSettings) (b : Rat) (cur nxt : MonthSummary)
    (hcur : summaries.get? i = some cur)
    (hnext : summaries.get? (i + 1) = some nxt)
    (hmode : jsOrStr settings.mode "next_month_trough" = "next_month_trough")
    (hbuf : jsOrRat settings.buffer 300 = b) :
    (0 ≤ cur.endBalance - (nxt.minBalance + b) →
      (calculateSafeSurplus summaries i settings).safeWithdrawable =
          cur.endBalance - (nxt.minBalance + b) ∧
        (calculateSafeSurplus summaries i settings).isUnsafe = false) ∧
    (cur.endBalance - (nxt.minBalance + b) < 0 →
      (calculateSafeSurplus summaries i settings).safeWithdrawable = 0 ∧
        (calculateSafeSurplus summaries i settings).isUnsafe = true ∧
        (calculateSafeSurplus summaries i settings).unsafeBy =
          some (mathAbs (cur.endBalance - (nxt.minBalance + b)))) ∧
    ((calculateSafeSurplus
        [{endBalance := 5000, minBalance := 0},
          {endBalance := 0, minBalance := 1000}] 0
        {buffer := some 300}).safeWithdrawable = 3700 ∧
      (calculateSafeSurplus
        [{endBalance := 5000, minBalance := 0},
          {endBalance := 0, minBalance := 1000}] 0
        {buffer := some 300}).isUnsafe = false) ∧
    ((calculateSafeSurplus
        [{endBalance := 1000, minBalance := 0},
          {endBalance := 0, minBalance := 1000}] 0
        {buffer := some 300}).safeWithdrawable = 0 ∧
      (calculateSafeSurplus
        [{endBalance := 1000, minBalance := 0},
          {endBalance := 0, minBalance := 1000}] 0
        {buffer := some 300}).isUnsafe = true ∧
      (calculateSafeSurplus
        [{endBalance := 1000, minBalance := 0},
          {endBalance := 0, minBalance := 1000}] 0
        {buffer := some 300}).unsafeBy = some 300) := by
  refine ⟨?_, ?_, ?_, ?_⟩
  · intro hge
    simp only [calculateSafeSurplus, hcur, hnext, hmode, hbuf]
    rw [show (("next_month_trough" : String) == "floor") = false from rfl]
    simp only [Bool.false_eq_true, if_false, if_pos hge]
    exact ⟨trivial, trivial⟩
  · intro hlt
    simp only [calculateSafeSurplus, hcur, hnext, hmode, hbuf]
    rw [show (("next_month_trough" : String) == "floor") = false from rfl]
    simp only [Bool.false_eq_true, if_false, if_neg (not_le.mpr hlt)]
    exact ⟨trivial, trivial, trivial⟩
  · exact ⟨by with_unfolding_all rfl, by with_unfolding_all rfl⟩
  · exact ⟨by with_unfolding_all rfl, by with_unfolding_all rfl,
      by with_unfolding_all rfl⟩

/-- C2 witness: the general statement applied at the 5000 / 1000 / 300
instance. -/
theorem safeSurplus_next_month_trough_witness :
    (calculateSafeSurplus
      [{endBalance := 5000, minBalance := 0},
        {endBalance := 0, minBalance := 1000}] 0
      {buffer := some 300}).safeWithdrawable = (5000 : Rat) - (1000 + 300) ∧
    (calculateSafeSurplus
      [{endBalance := 5000, minBalance := 0},
        {endBalance := 0, minBalance := 1000}] 0
      {buffer := some 300}).isUnsafe = false :=
  (safeSurplus_next_month_trough
      [{endBalance := 5000, minBalance := 0}, {endBalance := 0, minBalance := 1000}]
      0 {buffer := some 300} 300
      {endBalance := 5000, minBalance := 0} {endBalance := 0, minBalance := 1000}
      rfl rfl rfl (by with_unfolding_all rfl)).1
    (by norm_num)

/-- C3 counterexample: with a single month (endBalance 5000) and default
settings (floor 2000, buffer 300), the no-next-month fallback returns 2700,
not the floor-formula value `max(0, 5000 - 2000) = 3000`. -/
theorem safeSurplus_fallback_counterexample :
    (calculateSafeSurplus [{endBalance := 5000, minBalance := 0}] 0
        {}).safeWithdrawable = 2700 ∧
      ¬ (calculateSafeSurplus [{endBalance := 5000, minBalance := 0}] 0
          {}).safeWithdrawable = mathMax 0 ((5000 : Rat) - 2000) :=
  ⟨by with_unfolding_all rfl, by with_unfolding_all decide⟩

/-- C3 (amended).  When month `i+1` does not exist, the
`next_month_trough` fallback returns `max(0, endBalance[i] - floor -
buffer)` — the floor formula with the buffer subtracted as well — flagged
as an estimate (`isEstimate = true`). -/
theorem safeSurplus_fallback (summaries : List MonthSummary) (i : Nat)
    (settings : SafeSurplusSettings) (b f : Rat) (cur : MonthSummary)
    (hcur : summaries.get? i = some cur)
    (hnext : summaries.get? (i + 1) = none)
    (hmode : jsOrStr settings.mode "next_month_trough" = "next_month_trough")
    (hbuf : jsOrRat settings.buffer 300 = b)
    (hfloor : jsOrRat settings.floor 2000 = f) :
    (calculateSafeSurplus summaries i settings).safeWithdrawable =
        mathMax 0 (cur.endBalance - f - b) ∧
      (calculateSafeSurplus summaries i settings).isEstimate = true := by
  simp only [calculateSafeSurplus, hcur, hnext, hmode, hbuf, hfloor]
  rw [show (("next_month_trough" : String) == "floor") = false from rfl]
  simp only [Bool.false_eq_true, if_false]
  exact ⟨trivial, trivial⟩

/-- C3 witness: the amended statement applied at the counterexample
input. -/
theorem safeSurplus_fallback_witness :
    (calculateSafeSurplus [{endBalance := 5000, minBalance := 0}] 0
        {}).safeWithdrawable = mathMax 0 ((5000 : Rat) - 2000 - 300) ∧
      (calculateSafeSurplus [{endBalance := 5000, minBalance := 0}] 0
        {}).isEstimate = true :=
  safeSurplus_fallback [{endBalance := 5000, minBalance := 0}] 0 {} 300 2000
    {endBalance := 5000, minBalance := 0} rfl rfl rfl
    (by with_unfolding_all rfl) (by with_unfolding_all rfl)

/-- C4.  Evaluation of `expandBiweeklyAnchor`: the spec's own example
(anchor 2024-01-01 over [2024-01-01, 2024-02-28]) produces the five
expected anchor-aligned dates, but a window starting 14 days before the
anchor (anchor 2024-02-01 over [2024-01-18, 2024-02-28]) emits
2024-01-18 = anchor − 14 days, a date strictly before the anchor
(`k = -1`), contradicting "anchorDate + 14k for integer k ≥ 0". -/
theorem biweeklyAnchor_eval :
    expandBiweeklyAnchor (some ⟨2024, 1, 1⟩) ⟨2024, 1, 1⟩ ⟨2024, 2, 28⟩ =
        [⟨2024, 1, 1⟩, ⟨2024, 1, 15⟩, ⟨2024, 1, 29⟩, ⟨2024, 2, 12⟩,
          ⟨2024, 2, 26⟩] ∧
      expandBiweeklyAnchor (some ⟨2024, 2, 1⟩) ⟨2024, 1, 18⟩ ⟨2024, 2, 28⟩ =
        [⟨2024, 1, 18⟩, ⟨2024, 2, 1⟩, ⟨2024, 2, 15⟩] ∧
      ⟨2024, 1, 18⟩ ∈
          expandBiweeklyAnchor (some ⟨2024, 2, 1⟩) ⟨2024, 1, 18⟩ ⟨2024, 2, 28⟩ ∧
      Date.lt ⟨2024, 1, 18⟩ ⟨2024, 2, 1⟩ := by
  refine ⟨by decide, by decide, by decide, by decide⟩

/-- C9.  Principal 1200 at APR 24% (monthly rate 2%) with the minimum
payment resolving to 200 from the linked rule, no extra monthly payment
and no lump sums: paid off in exactly 7 months, the first six payments
are 200 and the seventh (final) payment is strictly less than 200. -/
theorem debt_payoff_1200_24 :
    getMonthlyRate 24 = 1 / 50 ∧
      (projectPayoff [{id := "r1", kind := "expense", amount := 200}]
          ⟨2025, 1, 1⟩
          {principal := 1200, apr := 24, minPaymentRuleId := some "r1"}
          {}).isPaidOff = true ∧
      (projectPayoff [{id := "r1", kind := "expense", amount := 200}]
          ⟨2025, 1, 1⟩
          {principal := 1200, apr := 24, minPaymentRuleId := some "r1"}
          {}).payoffMonths = some 7 ∧
      (projectPayoff [{id := "r1", kind := "expense", amount := 200}]
          ⟨2025, 1, 1⟩
          {principal := 1200, apr := 24, minPaymentRuleId := some "r1"}
          {}).schedule.map (fun sch => sch.payment) =
        [200, 200, 200, 200, 200, 200, 91566124686336 / 1000000000000] ∧
      ((91566124686336 : Rat) / 1000000000000 < 200) := by
  refine ⟨by with_unfolding_all rfl, by with_unfolding_all rfl,
    by with_unfolding_all rfl, by with_unfolding_all rfl,
    by with_unfolding_all decide⟩

/-- Expansion of a rule whose `enabled` is not literally `true` is empty
(`if (!rule || !rule.enabled) return []`). -/
theorem expandRule_not_enabled (rule : Rule) (s e : Date) (mo : Option Model)
    (h : rule.enabled ≠ some true) : expandRule (some rule) s e mo = [] := by
  simp only [expandRule, if_pos h]

/-- Iterating the expansion over the `enabled !== false` filter equals
iterating it over only the truthy-enabled rules. -/
theorem flatMap_enabled_filter (s e : Date) (m : Model) :
    ∀ rules : List Rule,
      (rules.filter (fun r => r.enabled != some false)).flatMap
          (fun r => expandRule (some r) s e (some m)) =
        (rules.filter (fun r => r.enabled == some true)).flatMap
          (fun r => expandRule (some r) s e (some m)) := by
  intro rules
  induction rules with
  | nil => rfl
  | cons r rules ih =>
    match hr : r.enabled with
    | none =>
      have hempty : expandRule (some r) s e (some m) = [] :=
        expandRule_not_enabled r s e (some m) (by simp [hr])
      simp [List.filter_cons, hr, hempty, ih]
    | some true => simp [List.filter_cons, hr, ih]
    | some false => simp [List.filter_cons, hr, ih]

/-- C10.  A rule whose `enabled` flag is absent or otherwise falsy expands
to the empty sequence for all windows and models; such an absent-flag rule
is nonetheless admitted by the pipeline's `enabled !== false` filter, and
the rule-derived part of `generateTransactions` equals what only the
truthy-enabled rules produce. -/
theorem disabled_rule_contributes_nothing (rule : Rule) (s e : Date)
    (mo : Option Model) (m : Model) (h : rule.enabled ≠ some true) :
    expandRule (some rule) s e mo = [] ∧
      (rule.enabled = none → rule ∈ m.rules →
        rule ∈ m.rules.filter (fun r => r.enabled != some false)) ∧
      ((m.rules.filter (fun r => r.enabled != some false)).flatMap
          (fun r => expandRule (some r) s e (some m)) =
        (m.rules.filter (fun r => r.enabled == some true)).flatMap
          (fun r => expandRule (some r) s e (some m))) := by
  refine ⟨expandRule_not_enabled rule s e mo h, ?_, flatMap_enabled_filter s e m m.rules⟩
  intro habsent hmem
  refine List.mem_filter.mpr ⟨hmem, ?_⟩
  simp [habsent]

/-- The witness rule for C10: `enabled` absent, recurrence present. -/
def absentEnabledRule : Rule :=
  { id := "r", recurrence := some (.monthly_day (some 1)) }

/-- The witness model for C10. -/
def absentEnabledModel : Model := { rules := [absentEnabledRule] }

/-- C10 witness: a rule with `enabled` absent, inside a one-rule model. -/
theorem disabled_rule_contributes_nothing_witness :
    expandRule (some absentEnabledRule) ⟨2025, 1, 1⟩ ⟨2025, 12, 31⟩ none = [] ∧
      absentEnabledRule ∈
        absentEnabledModel.rules.filter (fun r => r.enabled != some false) ∧
      ((absentEnabledModel.rules.filter
            (fun r => r.enabled != some false)).flatMap
          (fun r => expandRule (some r) ⟨2025, 1, 1⟩ ⟨2025, 12, 31⟩
            (some absentEnabledModel)) =
        (absentEnabledModel.rules.filter
            (fun r => r.enabled == some true)).flatMap
          (fun r => expandRule (some r) ⟨2025, 1, 1⟩ ⟨2025, 12, 31⟩
            (some absentEnabledModel))) :=
  have h := disabled_rule_contributes_nothing absentEnabledRule
    ⟨2025, 1, 1⟩ ⟨2025, 12, 31⟩ none absentEnabledModel (by decide)
  ⟨h.1, h.2.1 rfl (List.mem_singleton.mpr rfl), h.2.2⟩

/-- Two in-place `find`-and-mutate passes compose, provided the predicate
is preserved by the first mutation. -/
theorem updateFirst_updateFirst (p : α → Bool) (f g : α → α)
    (hp : ∀ a, p a = true → p (g a) = true) :
    ∀ l : List α,
      updateFirst p f (updateFirst p g l) = updateFirst p (fun a => f (g a)) l := by
  intro l
  induction l with
  | nil => rfl
  | cons x xs ih =>
    by_cases hx : p x = true
    · simp only [updateFirst, hx, if_true, hp x hx]
    · have hx' : p x = false := by simpa using hx
      simp only [updateFirst, hx', Bool.false_eq_true, if_false, ih]

/-- `find?` after an in-place mutation of the first match. -/
theorem find?_updateFirst (p : α → Bool) (f : α → α)
    (hp : ∀ a, p a = true → p (f a) = true) :
    ∀ l : List α, (updateFirst p f l).find? p = (l.find? p).map f := by
  intro l
  induction l with
  | nil => rfl
  | cons x xs ih =>
    by_cases hx : p x = true
    · simp only [updateFirst, hx, if_true, List.find?_cons, hp x hx]
      rfl
    · have hx' : p x = false := by simpa using hx
      simp only [updateFirst, hx', Bool.false_eq_true, if_false,
        List.find?_cons, ih]

/-- Setting a rule's amount to the same value twice is one set. -/
theorem applyRuleAmountSet_idem (m : Model) (rid : String) (v : Rat) :
    applyRuleAmountSet (applyRuleAmountSet m rid (some v)) rid (some v) =
      applyRuleAmountSet m rid (some v) := by
  simp only [applyRuleAmountSet]
  congr 1
  have h := updateFirst_updateFirst (fun r0 : Rule => r0.id == rid)
    (setRuleAmount v) (setRuleAmount v) (fun a ha => ha) m.rules
  have hff : (fun a : Rule => setRuleAmount v (setRuleAmount v a)) =
      setRuleAmount v := funext fun a => rfl
  rw [hff] at h
  exact h

/-- Applying the same delta twice adds `2 * d` to the target rule. -/
theorem applyRuleAmountDelta_twice (m : Model) (rid : String) (d : Rat)
    (r : Rule) (hfind : m.rules.find? (fun r0 => r0.id == rid) = some r) :
    (applyRuleAmountDelta (applyRuleAmountDelta m rid (some d)) rid
        (some d)).rules.find? (fun r0 => r0.id == rid) =
      some { r with amount := r.amount + 2 * d } := by
  simp only [applyRuleAmountDelta]
  rw [updateFirst_updateFirst (fun r0 : Rule => r0.id == rid)
      (deltaRuleAmount d) (deltaRuleAmount d) (fun a ha => ha) m.rules,
    find?_updateFirst (fun r0 : Rule => r0.id == rid)
      (fun a => deltaRuleAmount d (deltaRuleAmount d a)) (fun a ha => ha) m.rules,
    hfind]
  have hamount : deltaRuleAmount d (deltaRuleAmount d r) =
      { r with amount := r.amount + 2 * d } := by
    simp only [deltaRuleAmount]
    congr 1
    split_ifs <;> linarith
  simp only [Option.map, hamount]

/-- C7.  With the target rule present: replaying the same
`rule_amount_set` twice equals replaying it once (idempotent), while
replaying the same `rule_amount_delta` twice leaves the rule's amount
increased by `2 * delta` (the delta compounds). -/
theorem overlay_set_idempotent_delta_compounds (m : Model) (rid : String)
    (v d : Rat) (r : Rule)
    (hfind : m.rules.find? (fun r0 => r0.id == rid) = some r) :
    applyOperation (applyOperation m (.rule_amount_set rid (some v)))
        (.rule_amount_set rid (some v)) =
      applyOperation m (.rule_amount_set rid (some v)) ∧
    (applyOperation (applyOperation m (.rule_amount_delta rid (some d)))
        (.rule_amount_delta rid (some d))).rules.find? (fun r0 => r0.id == rid) =
      some { r with amount := r.amount + 2 * d } :=
  ⟨applyRuleAmountSet_idem m rid v, applyRuleAmountDelta_twice m rid d r hfind⟩

/-- C7 witness: a one-rule model with amount 10, set value 7, delta 3. -/
theorem overlay_set_idempotent_delta_compounds_witness :
    applyOperation (applyOperation { rules := [{ id := "a", amount := 10 }] }
        (.rule_amount_set "a" (some 7))) (.rule_amount_set "a" (some 7)) =
      applyOperation { rules := [{ id := "a", amount := 10 }] }
        (.rule_amount_set "a" (some 7)) ∧
    (applyOperation (applyOperation { rules := [{ id := "a", amount := 10 }] }
        (.rule_amount_delta "a" (some 3)))
        (.rule_amount_delta "a" (some 3))).rules.find? (fun r0 => r0.id == "a") =
      some { id := "a", amount := (10 : Rat) + 2 * 3 } :=
  overlay_set_idempotent_delta_compounds { rules := [{ id := "a", amount := 10 }] }
    "a" 7 3 { id := "a", amount := 10 } (by with_unfolding_all rfl)

/-- A heap write at one reference does not change what another reference
holds. -/
theorem applyOperationHeap_get?_ne (h : Heap) (r j : Nat) (op : Op)
    (hne : r ≠ j) : (applyOperationHeap h r op).get? j = h.get? j := by
  unfold applyOperationHeap
  cases hr : h.get? r with
  | none => rfl
  | some v =>
    simp only [List.get?_eq_getElem?]
    exact List.getElem?_set_ne hne

/-- Replaying any operation list against one cell preserves every other
cell. -/
theorem foldl_applyOperationHeap_get? (ops : List Op) (r j : Nat)
    (hne : r ≠ j) :
    ∀ h : Heap,
      (ops.foldl (fun h2 op => applyOperationHeap h2 r op) h).get? j = h.get? j := by
  induction ops with
  | nil => intro h; rfl
  | cons op ops ih =>
    intro h
    simp only [List.foldl_cons, ih, applyOperationHeap_get?_ne h r j op hne]

/-- C8.  `applyScenario` clones the base model and mutates only the clone:
after the call the base reference holds the same model value, and the
returned effective-model reference is a fresh cell distinct from the
base. -/
theorem applyScenario_preserves_base (h : Heap) (baseRef : Nat)
    (scenario : Option Scenario) (hlt : baseRef < h.length) :
    (applyScenarioHeap h baseRef scenario).1.get? baseRef = h.get? baseRef ∧
      (applyScenarioHeap h baseRef scenario).2 ≠ baseRef := by
  obtain ⟨v, hv⟩ : ∃ v, h.get? baseRef = some v :=
    ⟨h.get ⟨baseRef, hlt⟩, List.get?_eq_some.mpr ⟨hlt, rfl⟩⟩
  have hclone : cloneModelHeap h baseRef = (List.append h [cloneModel v], h.length) := by
    simp only [cloneModelHeap, hv]
  have happend : (List.append h [cloneModel v]).get? baseRef = h.get? baseRef := by
    simp only [List.get?_eq_getElem?]
    exact List.getElem?_append_left hlt
  have hne : h.length ≠ baseRef := (Nat.ne_of_lt hlt).symm
  match scenario with
  | none => exact ⟨by simp only [applyScenarioHeap, hclone, happend], by
      simp only [applyScenarioHeap, hclone]; exact hne⟩
  | some sc =>
    by_cases hops : sc.ops.isEmpty
    · exact ⟨by simp only [applyScenarioHeap, hops, if_true, hclone, happend], by
        simp only [applyScenarioHeap, hops, if_true, hclone]; exact hne⟩
    · refine ⟨?_, by simp only [applyScenarioHeap, hops, Bool.false_eq_true,
        if_false, hclone]; exact hne⟩
      simp only [applyScenarioHeap, hops, Bool.false_eq_true, if_false, hclone]
      rw [foldl_applyOperationHeap_get? sc.ops h.length baseRef hne]
      exact happend

/-- C8 witness: a one-model heap and a one-operation scenario. -/
theorem applyScenario_preserves_base_witness :
    (applyScenarioHeap [{}] 0
        (some { ops := [.rule_amount_set "x" (some 5)] })).1.get? 0 =
      [({} : Model)].get? 0 ∧
    (applyScenarioHeap [{}] 0
        (some { ops := [.rule_amount_set "x" (some 5)] })).2 ≠ 0 :=
  applyScenario_preserves_base [{}] 0
    (some { ops := [.rule_amount_set "x" (some 5)] }) (by decide)

/-- The sort key of the transaction comparator: date, then priority, then
kind rank. -/
def txKey (t : Tx) : Date × Rat × Nat := (t.date, t.priority, kindOrderOf t.kind)

theorem Date.lt_trichotomyP (a b : Date) : Date.lt a b ∨ a = b ∨ Date.lt b a := by
  obtain ⟨y1, m1, d1⟩ := a
  obtain ⟨y2, m2, d2⟩ := b
  simp only [Date.lt, Date.mk.injEq]
  omega

theorem Date.lt_transP {a b c : Date} (h1 : Date.lt a b) (h2 : Date.lt b c) :
    Date.lt a c := by
  obtain ⟨y1, m1, d1⟩ := a
  obtain ⟨y2, m2, d2⟩ := b
  obtain ⟨y3, m3, d3⟩ := c
  simp only [Date.lt] at *
  omega

instance : IsTotal Tx txLe :=
  ⟨fun a b => by
    rcases Date.lt_trichotomyP a.date b.date with h | h | h
    · exact Or.inl (Or.inl h)
    · rcases lt_trichotomy a.priority b.priority with hp | hp | hp
      · exact Or.inl (Or.inr ⟨h, Or.inl hp⟩)
      · rcases Nat.le_total (kindOrderOf a.kind) (kindOrderOf b.kind) with hk | hk
        · exact Or.inl (Or.inr ⟨h, Or.inr ⟨hp, hk⟩⟩)
        · exact Or.inr (Or.inr ⟨h.symm, Or.inr ⟨hp.symm, hk⟩⟩)
      · exact Or.inr (Or.inr ⟨h.symm, Or.inl hp⟩)
    · exact Or.inr (Or.inl h)⟩

instance : IsTrans Tx txLe :=
  ⟨fun a b c hab hbc => by
    rcases hab with h1 | ⟨e1, h1⟩ <;> rcases hbc with h2 | ⟨e2, h2⟩
    · exact Or.inl (Date.lt_transP h1 h2)
    · exact Or.inl (e2 ▸ h1)
    · exact Or.inl (e1 ▸ h2)
    · refine Or.inr ⟨e1.trans e2, ?_⟩
      rcases h1 with hp1 | ⟨ep1, hk1⟩ <;> rcases h2 with hp2 | ⟨ep2, hk2⟩
      · exact Or.inl (hp1.trans hp2)
      · exact Or.inl (ep2 ▸ hp1)
      · exact Or.inl (ep1 ▸ hp2)
      · exact Or.inr ⟨ep1.trans ep2, hk1.trans hk2⟩⟩

/-- Key-equal transactions compare ≤ (the comparator returns 0). -/
theorem txLe_of_key_eq {a b : Tx} (h : txKey a = txKey b) : txLe a b := by
  simp only [txKey, Prod.mk.injEq] at h
  exact Or.inr ⟨h.1, Or.inr ⟨h.2.1, le_of_eq h.2.2⟩⟩

/-- Filtering one key class through an ordered insertion: the inserted
element lands behind every element of its own class (stability of the
insertion). -/
theorem filterKey_orderedInsert {α κ : Type} [DecidableEq κ]
    (le : α → α → Prop) [DecidableRel le] (k : α → κ)
    (hk : ∀ a b, ¬ le a b → k a ≠ k b) (a : α) (c : κ) :
    ∀ l : List α,
      (List.orderedInsert le a l).filter (fun x => decide (k x = c)) =
        if k a = c then a :: l.filter (fun x => decide (k x = c))
        else l.filter (fun x => decide (k x = c)) := by
  intro l
  induction l with
  | nil =>
    by_cases hka : k a = c <;> simp [List.orderedInsert, hka]
  | cons b l ih =>
    by_cases hab : le a b
    · by_cases hka : k a = c <;>
        simp [List.orderedInsert, hab, List.filter_cons, hka]
    · by_cases hka : k a = c
      · have hkb : ¬ (k b = c) := fun hbc => hk a b hab (by rw [hka, hbc])
        simp [List.orderedInsert, hab, List.filter_cons, hka, hkb, ih]
      · simp [List.orderedInsert, hab, List.filter_cons, hka, ih]

/-- Filtering one key class commutes with insertion sort: the sort is
stable. -/
theorem filterKey_insertionSort {α κ : Type} [DecidableEq κ]
    (le : α → α → Prop) [DecidableRel le] (k : α → κ)
    (hk : ∀ a b, ¬ le a b → k a ≠ k b) (c : κ) :
    ∀ l : List α,
      (List.insertionSort le l).filter (fun x => decide (k x = c)) =
        l.filter (fun x => decide (k x = c)) := by
  intro l
  induction l with
  | nil => rfl
  | cons x xs ih =>
    simp only [List.insertionSort]
    rw [filterKey_orderedInsert le k hk x c]
    by_cases hkx : k x = c <;> simp [hkx, ih, List.filter_cons]

/-- C6.  `generateTransactions` output is sorted by (date, priority,
kind rank with income < transfer < expense), and the sort is stable:
within every key class the emission order of `unsortedTransactions`
(adjusted rule occurrences, then one-offs) is preserved. -/
theorem generateTransactions_sorted_stable (m : Model) (s e : Date) :
    List.Sorted txLe (generateTransactions m s e) ∧
      ∀ c : Date × Rat × Nat,
        (generateTransactions m s e).filter (fun t => decide (txKey t = c)) =
          (unsortedTransactions m s e).filter (fun t => decide (txKey t = c)) := by
  constructor
  · exact List.sorted_insertionSort txLe (unsortedTransactions m s e)
  · intro c
    exact filterKey_insertionSort txLe txKey
      (fun a b hnle hkeq => hnle (txLe_of_key_eq hkeq)) c
      (unsortedTransactions m s e)

/-- The ledger loop maintains `balance = C + totalIncome - totalExpenses +
totalTransfersIn - totalTransfersOut` across transactions of the three
kinds that touch the account. -/
theorem ledger_foldl_balance (accountId : String) (C : Rat) :
    ∀ (txs : List Tx) (st : RunState),
      (∀ tx ∈ txs,
        (tx.kind = "income" ∨ tx.kind = "expense" ∨ tx.kind = "transfer") ∧
          (tx.accountId == accountId || tx.toAccountId == some accountId) = true) →
      st.balance = C + st.totalIncome - st.totalExpenses +
          st.totalTransfersIn - st.totalTransfersOut →
      (txs.foldl (ledgerStep accountId) st).balance =
        C + (txs.foldl (ledgerStep accountId) st).totalIncome -
          (txs.foldl (ledgerStep accountId) st).totalExpenses +
          (txs.foldl (ledgerStep accountId) st).totalTransfersIn -
          (txs.foldl (ledgerStep accountId) st).totalTransfersOut := by
  intro txs
  induction txs with
  | nil => intro st _ hst; exact hst
  | cons tx txs ih =>
    intro st hall hst
    have htx := hall tx (List.mem_cons_self _ _)
    have hrest : ∀ t ∈ txs, _ := fun t ht => hall t (List.mem_cons_of_mem _ ht)
    rw [List.foldl_cons]
    apply ih _ hrest
    obtain ⟨hkind, htouch⟩ := htx
    rcases hkind with hk | hk | hk
    · simp only [ledgerStep, hk,
        show (("income" : String) == "transfer") = false from rfl,
        show (("income" : String) == "expense") = false from rfl,
        show (("income" : String) == "income") = true from rfl,
        Bool.false_eq_true, if_false, if_true]
      linarith [hst]
    · simp only [ledgerStep, hk,
        show (("expense" : String) == "transfer") = false from rfl,
        show (("expense" : String) == "expense") = true from rfl,
        Bool.false_eq_true, if_false, if_true]
      linarith [hst]
    · simp only [ledgerStep, hk,
        show (("transfer" : String) == "transfer") = true from rfl, if_true]
      by_cases hsrc : (tx.accountId == accountId) = true
      · simp only [hsrc, if_true]
        linarith [hst]
      · simp only [Bool.not_eq_true] at hsrc
        have hdst : (tx.toAccountId == some accountId) = true := by
          rcases (Bool.or_eq_true _ _).mp htouch with h | h
          · rw [hsrc] at h; exact absurd h (by simp)
          · exact h
        simp only [hsrc, Bool.false_eq_true, if_false, hdst, if_true]
        linarith [hst]

/-- C1 (amended).  For well-formed input — every generated transaction has
kind income/expense/transfer, and the resolved ledger account id is
non-empty (account ids are required by the model validator, so the ledger's
`accountId ? filter : …` guard applies) — `runLedger` satisfies
`endBalance = startingBalance + totalIncome - totalExpenses +
totalTransfersIn - totalTransfersOut` exactly. -/
theorem runLedger_balance_invariant (today : Date) (m : Model)
    (opts : RunOptions)
    (hkinds : ∀ tx ∈ generateTransactions m (resolvedStartDate today opts)
        (resolvedEndDate today m opts),
      tx.kind = "income" ∨ tx.kind = "expense" ∨ tx.kind = "transfer")
    (hacct : resolvedAccountId m opts ≠ "") :
    (runLedger today m opts).summary.endBalance =
      (runLedger today m opts).startingBalance +
        (runLedger today m opts).summary.totalIncome -
        (runLedger today m opts).summary.totalExpenses +
        (runLedger today m opts).summary.totalTransfersIn -
        (runLedger today m opts).summary.totalTransfersOut := by
  have h1 : (runLedger today m opts).summary.endBalance =
      (ledgerFinalState today m opts).balance := rfl
  have h2 : (runLedger today m opts).summary.totalIncome =
      (ledgerFinalState today m opts).totalIncome := rfl
  have h3 : (runLedger today m opts).summary.totalExpenses =
      (ledgerFinalState today m opts).totalExpenses := rfl
  have h4 : (runLedger today m opts).summary.totalTransfersIn =
      (ledgerFinalState today m opts).totalTransfersIn := rfl
  have h5 : (runLedger today m opts).summary.totalTransfersOut =
      (ledgerFinalState today m opts).totalTransfersOut := rfl
  have h6 : (runLedger today m opts).startingBalance =
      getStartingBalanceForAccount m (resolvedAccountId m opts)
        (resolvedStartDate today opts) := rfl
  rw [h1, h2, h3, h4, h5, h6]
  unfold ledgerFinalState
  apply ledger_foldl_balance
  · intro tx htx
    have hbeq : (resolvedAccountId m opts == "") = false := by
      simpa using hacct
    unfold ledgerTransactions at htx
    rw [hbeq] at htx
    simp only [Bool.false_eq_true, if_false] at htx
    obtain ⟨hmem, htouch⟩ := List.mem_filter.mp htx
    exact ⟨hkinds tx hmem, htouch⟩
  · simp only [ledgerInitState]
    ring

/-- The C1 counterexample model: the (unique) checking account has the
empty identifier, so the resolved ledger account id is `""` (falsy) and the
account filter is skipped; one enabled transfer rule moves 50 between two
other accounts. -/
def emptyIdModel : Model :=
  { accounts := [{ id := "", type := "checking" }]
    rules := [{ id := "t1", kind := "transfer", accountId := "a",
                toAccountId := some "b", amount := 50, enabled := some true,
                recurrence := some (.monthly_day (some 15)) }] }

/-- The C1 counterexample run window (January 2025). -/
def janWindowOptions : RunOptions :=
  { startDate := some ⟨2025, 1, 1⟩, endDate := some ⟨2025, 1, 31⟩ }

/-- C1 counterexample: on `emptyIdModel` every generated transaction has a
well-formed kind and a numeric amount, yet the balance identity fails —
the un-filtered transfer changes the balance by its raw amount without
entering any transfer total. -/
theorem runLedger_balance_counterexample :
    (∀ tx ∈ generateTransactions emptyIdModel ⟨2025, 1, 1⟩ ⟨2025, 1, 31⟩,
        tx.kind = "income" ∨ tx.kind = "expense" ∨ tx.kind = "transfer") ∧
      ¬ ((runLedger ⟨2025, 1, 1⟩ emptyIdModel janWindowOptions).summary.endBalance =
          (runLedger ⟨2025, 1, 1⟩ emptyIdModel janWindowOptions).startingBalance +
            (runLedger ⟨2025, 1, 1⟩ emptyIdModel
                janWindowOptions).summary.totalIncome -
            (runLedger ⟨2025, 1, 1⟩ emptyIdModel
                janWindowOptions).summary.totalExpenses +
            (runLedger ⟨2025, 1, 1⟩ emptyIdModel
                janWindowOptions).summary.totalTransfersIn -
            (runLedger ⟨2025, 1, 1⟩ emptyIdModel
                janWindowOptions).summary.totalTransfersOut) :=
  ⟨by with_unfolding_all decide, by with_unfolding_all decide⟩

/-- The C1 witness model: a well-formed checking account and one enabled
income rule of 100 on the 1st. -/
def simpleIncomeModel : Model :=
  { accounts := [{ id := "checking", type := "checking" }]
    rules := [{ id := "r1", kind := "income", accountId := "checking",
                amount := 100, enabled := some true,
                recurrence := some (.monthly_day (some 1)) }] }

/-- C1 witness: the invariant theorem applied to `simpleIncomeModel` over
January 2025. -/
theorem runLedger_balance_invariant_witness :
    (runLedger ⟨2025, 1, 1⟩ simpleIncomeModel janWindowOptions).summary.endBalance =
      (runLedger ⟨2025, 1, 1⟩ simpleIncomeModel janWindowOptions).startingBalance +
        (runLedger ⟨2025, 1, 1⟩ simpleIncomeModel
            janWindowOptions).summary.totalIncome -
        (runLedger ⟨2025, 1, 1⟩ simpleIncomeModel
            janWindowOptions).summary.totalExpenses +
        (runLedger ⟨2025, 1, 1⟩ simpleIncomeModel
            janWindowOptions).summary.totalTransfersIn -
        (runLedger ⟨2025, 1, 1⟩ simpleIncomeModel
            janWindowOptions).summary.totalTransfersOut :=
  runLedger_balance_invariant ⟨2025, 1, 1⟩ simpleIncomeModel janWindowOptions
    (by with_unfolding_all decide) (by with_unfolding_all decide)

theorem Date.le_transP {a b c : Date} (h1 : Date.le a b) (h2 : Date.le b c) :
    Date.le a c := by
  obtain ⟨y1, m1, d1⟩ := a
  obtain ⟨y2, m2, d2⟩ := b
  obtain ⟨y3, m3, d3⟩ := c
  simp only [Date.le] at *
  omega

theorem monthFirst_mono {a b : Nat} (h : a ≤ b) :
    Date.le (monthFirst a) (monthFirst b) := by
  simp only [monthFirst, Date.le]
  omega

theorem le_monthIdx_of_monthFirst_le {j : Nat} {e : Date}
    (h : Date.le (monthFirst j) e) : j ≤ monthIdx e := by
  obtain ⟨y, m, d⟩ := e
  simp only [monthFirst, Date.le, monthIdx] at *
  omega

theorem monthIdx_getValidDayOfMonth (j dv : Nat) :
    monthIdx (getValidDayOfMonth (monthFirst j) dv) = j := by
  simp only [getValidDayOfMonth, monthFirst, monthIdx]
  omega

/-- Membership in the `expandMonthlyDay` month loop: the emitted dates are
exactly the clamped days of the scanned months that fall inside the
window. -/
theorem monthlyDayLoop_mem (day : Nat) (s e : Date) :
    ∀ (fuel i : Nat) (x : Date),
      x ∈ monthlyDayLoop day s e i fuel ↔
        ∃ j, i ≤ j ∧ j < i + fuel ∧ Date.le (monthFirst j) e ∧
          x = getValidDayOfMonth (monthFirst j) day ∧
          Date.le s x ∧ Date.le x e := by
  intro fuel
  induction fuel with
  | zero =>
    intro i x
    simp only [monthlyDayLoop, List.not_mem_nil, false_iff, not_exists]
    rintro j ⟨_, h2, _⟩
    omega
  | succ fuel ih =>
    intro i x
    rw [monthlyDayLoop]
    by_cases hguard : Date.le (monthFirst i) e
    · rw [if_pos hguard]
      constructor
      · intro hx
        rcases List.mem_append.mp hx with hx | hx
        · by_cases hw : Date.le s (getValidDayOfMonth (monthFirst i) day) ∧
              Date.le (getValidDayOfMonth (monthFirst i) day) e
          · rw [if_pos hw] at hx
            have hxeq := List.mem_singleton.mp hx
            subst hxeq
            exact ⟨i, le_refl i, by omega, hguard, rfl, hw.1, hw.2⟩
          · rw [if_neg hw] at hx
            exact absurd hx (List.not_mem_nil x)
        · obtain ⟨j, hj1, hj2, hj3, hj4, hj5, hj6⟩ := (ih (i + 1) x).mp hx
          exact ⟨j, by omega, by omega, hj3, hj4, hj5, hj6⟩
      · rintro ⟨j, hj1, hj2, hj3, hj4, hj5, hj6⟩
        apply List.mem_append.mpr
        by_cases hji : j = i
        · subst hji
          subst hj4
          left
          rw [if_pos ⟨hj5, hj6⟩]
          exact List.mem_singleton.mpr rfl
        · right
          exact (ih (i + 1) x).mpr ⟨j, by omega, by omega, hj3, hj4, hj5, hj6⟩
    · rw [if_neg hguard]
      simp only [List.not_mem_nil, false_iff, not_exists]
      rintro j ⟨hj1, _, hj3, _⟩
      exact hguard (Date.le_transP (monthFirst_mono hj1) hj3)

/-- Membership in `expandMonthlyDay`: the fuel bound is not a
restriction, because a month passing the loop guard lies at or before the
window end's month. -/
theorem expandMonthlyDay_mem (day : Option Nat) (s e : Date) (x : Date) :
    x ∈ expandMonthlyDay day s e ↔
      ∃ j, monthIdx s ≤ j ∧ Date.le (monthFirst j) e ∧
        x = getValidDayOfMonth (monthFirst j) (jsOrNat day 1) ∧
        Date.le s x ∧ Date.le x e := by
  unfold expandMonthlyDay
  rw [monthlyDayLoop_mem]
  constructor
  · rintro ⟨j, h1, _, h3, h4, h5, h6⟩
    exact ⟨j, h1, h3, h4, h5, h6⟩
  · rintro ⟨j, h1, h3, h4, h5, h6⟩
    have hje := le_monthIdx_of_monthFirst_le h3
    exact ⟨j, h1, by omega, h3, h4, h5, h6⟩

/-- A list strictly increasing on `monthIdx` has at most one element in
any fixed month. -/
theorem filter_month_length_le_one {l : List Date}
    (h : l.Pairwise (fun a b => monthIdx a < monthIdx b)) (i : Nat) :
    (l.filter (fun x => decide (monthIdx x = i))).length ≤ 1 := by
  induction l with
  | nil => simp
  | cons x xs ih =>
    rw [List.pairwise_cons] at h
    obtain ⟨hx, hxs⟩ := h
    by_cases hxi : monthIdx x = i
    · have hnil : xs.filter (fun y => decide (monthIdx y = i)) = [] := by
        rw [List.filter_eq_nil_iff]
        intro y hy
        have := hx y hy
        simp only [decide_eq_true_eq]
        omega
      simp [List.filter_cons, hxi, hnil]
    · simp only [List.filter_cons, decide_eq_true_eq, hxi, if_false]
      exact ih hxs

/-- The month loop emits dates in strictly increasing month order. -/
theorem monthlyDayLoop_pairwise (day : Nat) (s e : Date) :
    ∀ (fuel i : Nat),
      (monthlyDayLoop day s e i fuel).Pairwise
        (fun a b => monthIdx a < monthIdx b) := by
  intro fuel
  induction fuel with
  | zero => intro i; simp [monthlyDayLoop]
  | succ fuel ih =>
    intro i
    rw [monthlyDayLoop]
    by_cases hguard : Date.le (monthFirst i) e
    · rw [if_pos hguard]
      apply List.pairwise_append.mpr
      refine ⟨?_, ih (i + 1), ?_⟩
      · by_cases hw : Date.le s (getValidDayOfMonth (monthFirst i) day) ∧
            Date.le (getValidDayOfMonth (monthFirst i) day) e
        · rw [if_pos hw]; simp
        · rw [if_neg hw]; simp
      · intro a ha b hb
        have hai : monthIdx a = i := by
          by_cases hw : Date.le s (getValidDayOfMonth (monthFirst i) day) ∧
              Date.le (getValidDayOfMonth (monthFirst i) day) e
          · rw [if_pos hw] at ha
            have := List.mem_singleton.mp ha
            subst this
            exact monthIdx_getValidDayOfMonth i day
          · rw [if_neg hw] at ha
            exact absurd ha (List.not_mem_nil a)
        obtain ⟨j, hj1, _, _, hj4, _, _⟩ := (monthlyDayLoop_mem day s e fuel (i + 1) b).mp hb
        subst hj4
        rw [monthIdx_getValidDayOfMonth]
        omega
    · rw [if_neg hguard]
      simp

/-- C5 (amended).  `expandMonthlyDay` emits at most one date per month;
a date is emitted for month `j` exactly when `j` is scanned (from the
window start's month through the window end's month) and the clamped day
`min(day, daysInMonth)` of month `j` lies inside the window; every emitted
date sits on the clamped day of its own month — never rolled into the next
month; and `monthly_day{31}` over February yields the last day of February
(29 in 2024, 28 in 2025). -/
theorem monthlyDay_clamps_within_window (day : Option Nat) (s e : Date) :
    (∀ i : Nat, ((expandMonthlyDay day s e).filter
        (fun x => decide (monthIdx x = i))).length ≤ 1) ∧
      (∀ x ∈ expandMonthlyDay day s e,
        x.d = min (jsOrNat day 1) (daysInMonth x.y x.m)) ∧
      (∀ x : Date, x ∈ expandMonthlyDay day s e ↔
        ∃ j, monthIdx s ≤ j ∧ Date.le (monthFirst j) e ∧
          x = getValidDayOfMonth (monthFirst j) (jsOrNat day 1) ∧
          Date.le s x ∧ Date.le x e) ∧
      expandMonthlyDay (some 31) ⟨2024, 2, 1⟩ ⟨2024, 2, 29⟩ = [⟨2024, 2, 29⟩] ∧
      expandMonthlyDay (some 31) ⟨2025, 2, 1⟩ ⟨2025, 2, 28⟩ = [⟨2025, 2, 28⟩] ∧
      expandMonthlyDay (some 31) ⟨2025, 1, 1⟩ ⟨2025, 3, 31⟩ =
        [⟨2025, 1, 31⟩, ⟨2025, 2, 28⟩, ⟨2025, 3, 31⟩] := by
  refine ⟨?_, ?_, expandMonthlyDay_mem day s e, by decide, by decide, by decide⟩
  · intro i
    exact filter_month_length_le_one
      (monthlyDayLoop_pairwise (jsOrNat day 1) s e _ _) i
  · intro x hx
    obtain ⟨j, _, _, hj4, _, _⟩ := (expandMonthlyDay_mem day s e x).mp hx
    subst hj4
    rfl

/-- C5 counterexample: with `monthly_day{5}` over the window
[2024-01-10, 2024-02-10], January 2024 overlaps the window (the window
starts inside it) yet the expansion emits no January date — the claim's
"exactly one date for every month overlapping the window" fails. -/
theorem monthlyDay_overlap_counterexample :
    expandMonthlyDay (some 5) ⟨2024, 1, 10⟩ ⟨2024, 2, 10⟩ = [⟨2024, 2, 5⟩] ∧
      monthIdx ⟨2024, 1, 10⟩ = monthIdx ⟨2024, 1, 1⟩ ∧
      ((expandMonthlyDay (some 5) ⟨2024, 1, 10⟩ ⟨2024, 2, 10⟩).filter
        (fun x => decide (monthIdx x = monthIdx ⟨2024, 1, 1⟩))).length = 0 := by
  refine ⟨by decide, by decide, by decide⟩

/-- C5 witness: the amended characterization applied at
`monthly_day{31}` over February 2024 — membership of 2024-02-29. -/
theorem monthlyDay_clamps_within_window_witness :
    (⟨2024, 2, 29⟩ : Date) ∈
      expandMonthlyDay (some 31) ⟨2024, 2, 1⟩ ⟨2024, 2, 29⟩ :=
  ((monthlyDay_clamps_within_window (some 31) ⟨2024, 2, 1⟩
        ⟨2024, 2, 29⟩).2.2.1 ⟨2024, 2, 29⟩).mpr
    ⟨monthIdx ⟨2024, 2, 1⟩, by decide, by decide, by decide, by decide, by decide⟩

end FSS
